import Mathlib

/-!
Verification development for the Agreement negotiation and lifecycle state
machine of the yagna marketplace node.

The repository ships the integration test suite of the market engine
(`src/core/market/tests/test_agreement.rs`); the engine itself
(`create_agreement`, `confirm_agreement`, `approve_agreement`,
`wait_for_approval`, `terminate_agreement`, `get_agreement`) is not part of
the sources at hand, so the operations below are modelled from the
specification (sections 3, 4.1, 6 and 7), with the shipped tests fixing the
behaviour wherever the specification leaves a choice.

Time is modelled as a natural-number timestamp passed explicitly to every
operation.  The two nodes (Requestor and Provider) and the two transport
directions are collected in a single `MarketState`; each operation returns
the successor state together with an `Except` result, so that "no state
change on error" is a provable equation rather than a convention.
-/

namespace Yagna

/-- The role under which an agreement id is viewed locally. -/
inductive Owner where
  | Requestor
  | Provider
deriving DecidableEq, Repr

/-- Owner-tagged agreement id: a logical id plus the owner tag. -/
structure AgreementId where
  logical : Nat
  owner : Owner
deriving DecidableEq, Repr

/-- `translate` returns the counterpart view of the same logical agreement. -/
def AgreementId.translate (id : AgreementId) (o : Owner) : AgreementId :=
  { id with owner := o }

inductive ProposalState where
  | Initial
  | Draft
  | Accepted
  | Rejected
  | Expired
deriving DecidableEq, Repr

/-- A negotiation step, chained via `prev_id` back to an initial Proposal. -/
structure Proposal where
  id : Nat
  prev_id : Option Nat
  issuer : Owner
  state : ProposalState
deriving DecidableEq, Repr

inductive AgreementState where
  | Proposal
  | Pending
  | Cancelled
  | Rejected
  | Approving
  | Approved
  | Expired
  | Terminated
deriving DecidableEq, Repr

/-- Structured termination reason; a `message` field is mandatory. -/
structure Reason where
  message : String
deriving DecidableEq, Repr

/-- The central entity, persisted under its own owner tag on each side. -/
structure Agreement where
  id : AgreementId
  proposal_id : Nat
  creation_ts : Nat
  valid_to : Nat
  state : AgreementState
  approved_ts : Option Nat
  terminated_ts : Option Nat
  termination_reason : Option Reason
  session_id : Option String
deriving DecidableEq, Repr

/-- The `InvalidState` sub-error naming the current state of the agreement
(`Pending` agreements are reported as `Confirmed`, `Approving` as
`Approved`, matching the test suite's `AgreementStateError`). -/
inductive AgreementStateError where
  | Proposed (id : AgreementId)
  | Confirmed (id : AgreementId)
  | Approved (id : AgreementId)
  | Cancelled (id : AgreementId)
  | Rejected (id : AgreementId)
  | Expired (id : AgreementId)
  | Terminated (id : AgreementId)
deriving DecidableEq, Repr

/-- Error taxonomy surfaced by the agreement operations. -/
inductive AgreementError where
  | NotFound (id : AgreementId)
  | AlreadyExists (id : AgreementId) (proposal_id : Nat)
  | OwnProposal (proposal_id : Nat)
  | NoNegotiations (proposal_id : Nat)
  | ProposalCountered (proposal_id : Nat)
  | ProposalNotFound (proposal_id : Nat)
  | InvalidState (e : AgreementStateError)
  | Expired (proposal_id : Nat)
  | ProtocolCreate
  | ProtocolApprove
deriving DecidableEq, Repr

/-- Errors of `wait_for_approval`, mirroring terminal states. -/
inductive WaitForApprovalError where
  | NotFound (id : AgreementId)
  | NotConfirmed (id : AgreementId)
  | Expired (id : AgreementId)
  | Cancelled (id : AgreementId)
  | Rejected (id : AgreementId)
  | Terminated (id : AgreementId)
deriving DecidableEq, Repr

inductive ApprovalStatus where
  | Approved
  | TimedOut
deriving DecidableEq, Repr

/-- Per-node persistent store: proposal chain records, agreement records
under the node's own owner tag, and the fresh-id allocator. -/
structure NodeState where
  proposals : List Proposal
  agreements : List Agreement
  nextId : Nat
deriving DecidableEq, Repr

/-- The two nodes plus the health of the two transport directions. -/
structure MarketState where
  req : NodeState
  prov : NodeState
  transportToProv : Bool
  transportToReq : Bool
deriving DecidableEq, Repr

def findProposal (n : NodeState) (pid : Nat) : Option Proposal :=
  n.proposals.find? (fun p => p.id == pid)

/-- `true` when some Proposal in the chain counters `pid`. -/
def hasSuccessor (n : NodeState) (pid : Nat) : Bool :=
  n.proposals.any (fun p => p.prev_id == some pid)

def findAgreementByProposal (n : NodeState) (pid : Nat) : Option Agreement :=
  n.agreements.find? (fun a => a.proposal_id == pid)

def findAgreement (n : NodeState) (id : AgreementId) : Option Agreement :=
  n.agreements.find? (fun a => a.id == id)

/-- Rewrite the agreement stored under `id` with `f`; other rows are kept. -/
def updateAgreement (n : NodeState) (id : AgreementId) (f : Agreement → Agreement) :
    NodeState :=
  { n with agreements := n.agreements.map (fun a => if a.id = id then f a else a) }

/-- Map an agreement state to the `InvalidState` sub-error reported for it. -/
def stateError (st : AgreementState) (id : AgreementId) : AgreementStateError :=
  match st with
  | .Proposal => .Proposed id
  | .Pending => .Confirmed id
  | .Approving => .Approved id
  | .Approved => .Approved id
  | .Cancelled => .Cancelled id
  | .Rejected => .Rejected id
  | .Expired => .Expired id
  | .Terminated => .Terminated id

/-- Modelled from the spec: Requestor-side `create_agreement` (section 4.1,
"Promotion preconditions"); the engine source is not in the repository.
Checks, in the spec's order: `NoNegotiations` for an initial Proposal,
`OwnProposal` for a requestor-issued one, `ProposalCountered` when the
Proposal is not the chain tail, `AlreadyExists` when an Agreement already
references it, and the expiration of `valid_to`.  The boundary is fixed by
section 8 ("`create_agreement` with `valid_to = now` permits creation") and
by the shipped tests, which create agreements with `valid_to = Utc::now()`
successfully: only `valid_to < now` is rejected as expired.  On success a
fresh Requestor-tagged agreement in state `Proposal` is persisted and the
Proposal is marked `Accepted`; no protocol message is emitted. -/
def create_agreement (s : MarketState) (pid : Nat) (valid_to now : Nat) :
    MarketState × Except AgreementError AgreementId :=
  match findProposal s.req pid with
  | none => (s, .error (.ProposalNotFound pid))
  | some p =>
    if p.prev_id = none then (s, .error (.NoNegotiations pid))
    else if p.issuer = .Requestor then (s, .error (.OwnProposal pid))
    else if hasSuccessor s.req pid then (s, .error (.ProposalCountered pid))
    else
      match findAgreementByProposal s.req pid with
      | some a => (s, .error (.AlreadyExists a.id pid))
      | none =>
        if valid_to < now then (s, .error (.Expired pid))
        else
          let aid : AgreementId := ⟨s.req.nextId, .Requestor⟩
          let agr : Agreement :=
            { id := aid, proposal_id := pid, creation_ts := now,
              valid_to := valid_to, state := .Proposal, approved_ts := none,
              terminated_ts := none, termination_reason := none,
              session_id := none }
          let req' : NodeState :=
            { proposals := s.req.proposals.map
                (fun q => if q.id = pid then { q with state := .Accepted } else q),
              agreements := agr :: s.req.agreements,
              nextId := s.req.nextId + 1 }
          ({ s with req := req' }, .ok aid)

/-- Modelled from the spec: Requestor `confirm_agreement` (section 4.1); the
engine source is not in the repository.  Requires state `Proposal`
(otherwise `InvalidState` of the current state), fails expired when
`now ≥ valid_to` (reported as `InvalidState(Expired)`, matching the test
`agreement_expired_before_confirmation`), then performs persist-then-send:
on a healthy transport the local record becomes `Pending` and the Provider
materializes its own `Pending` view (idempotently on retransmission); on a
broken transport the send fails with `ProtocolCreate` and the record is
rolled back to the pre-call state, so the returned state is the input
state. -/
def confirm_agreement (s : MarketState) (id : AgreementId) (session : Option String)
    (now : Nat) : MarketState × Except AgreementError Unit :=
  match findAgreement s.req id with
  | none => (s, .error (.NotFound id))
  | some a =>
    match a.state with
    | .Proposal =>
      if a.valid_to ≤ now then (s, .error (.InvalidState (.Expired id)))
      else if s.transportToProv then
        let req' := updateAgreement s.req id
          (fun b => { b with state := .Pending, session_id := session })
        let provId := id.translate .Provider
        let prov' :=
          match findAgreement s.prov provId with
          | some _ => s.prov
          | none =>
            { s.prov with agreements :=
                { a with id := provId, state := .Pending, session_id := session }
                  :: s.prov.agreements }
        ({ s with req := req', prov := prov' }, .ok ())
      else (s, .error .ProtocolCreate)
    | st => (s, .error (.InvalidState (stateError st id)))

/-- Modelled from the spec: Provider `approve_agreement` (section 4.1); the
engine source is not in the repository.  `NotFound` when the agreement was
never received, `InvalidState` of the current state when it is not
`Pending` (`Approving` and `Approved` both report `Approved`), expired when
the deadline has passed.  Otherwise the Provider sends `Approve` to the
Requestor: on a broken transport it fails `ProtocolApprove` and rolls back
to the pre-call state; on ACK both sides transition to `Approved` and
record `approved_ts`.  The commit-ack timeout only bounds real time and has
no counterpart in this synchronous model. -/
def approve_agreement (s : MarketState) (id : AgreementId) (session : Option String)
    (now : Nat) : MarketState × Except AgreementError Unit :=
  match findAgreement s.prov id with
  | none => (s, .error (.NotFound id))
  | some a =>
    match a.state with
    | .Pending =>
      if a.valid_to ≤ now then (s, .error (.InvalidState (.Expired id)))
      else if s.transportToReq then
        let reqId := id.translate .Requestor
        match findAgreement s.req reqId with
        | none => (s, .error (.NotFound id))
        | some r =>
          if r.state = .Pending then
            let prov' := updateAgreement s.prov id
              (fun b => { b with state := .Approved, approved_ts := some now,
                                 session_id := session })
            let req' := updateAgreement s.req reqId
              (fun b => { b with state := .Approved, approved_ts := some now })
            ({ s with prov := prov', req := req' }, .ok ())
          else (s, .error (.InvalidState (stateError r.state id)))
      else (s, .error .ProtocolApprove)
    | st => (s, .error (.InvalidState (stateError st id)))

/-- Modelled from the spec: Requestor `wait_for_approval` (section 4.1); the
engine source is not in the repository.  `NotFound` when unknown,
`NotConfirmed` in `Proposal`, terminal states mirrored as errors,
`Approved` returned immediately when already approved; while still waiting
the deadline is checked (`Expired` when passed) and otherwise the bounded
wait times out with the restartable `TimedOut` status. -/
def wait_for_approval (s : MarketState) (id : AgreementId) (now : Nat) :
    Except WaitForApprovalError ApprovalStatus :=
  match findAgreement s.req id with
  | none => .error (.NotFound id)
  | some a =>
    match a.state with
    | .Proposal => .error (.NotConfirmed id)
    | .Approved => .ok .Approved
    | .Expired => .error (.Expired id)
    | .Cancelled => .error (.Cancelled id)
    | .Rejected => .error (.Rejected id)
    | .Terminated => .error (.Terminated id)
    | .Pending => if a.valid_to ≤ now then .error (.Expired id) else .ok .TimedOut
    | .Approving => if a.valid_to ≤ now then .error (.Expired id) else .ok .TimedOut

def nodeOf (s : MarketState) (side : Owner) : NodeState :=
  match side with
  | .Requestor => s.req
  | .Provider => s.prov

def setNode (s : MarketState) (side : Owner) (n : NodeState) : MarketState :=
  match side with
  | .Requestor => { s with req := n }
  | .Provider => { s with prov := n }

def peerOf (side : Owner) : Owner :=
  match side with
  | .Requestor => .Provider
  | .Provider => .Requestor

/-- Health of the transport leaving `side` towards its peer. -/
def transportOk (s : MarketState) (side : Owner) : Bool :=
  match side with
  | .Requestor => s.transportToProv
  | .Provider => s.transportToReq

/-- Modelled from the spec: `terminate_agreement` (section 4.1,
"Reject / Cancel / Terminate"); the engine source is not in the
repository.  Permitted only from state `Approved`, on either side; any
other state fails `InvalidState` of the current state with no state
change.  On success the initiator records `Terminated` with
`terminated_ts` and the structured reason, and the peer applies the same
transition on receipt of the `Terminate` message. -/
def terminate_agreement (s : MarketState) (side : Owner) (id : AgreementId)
    (reason : Option Reason) (now : Nat) : MarketState × Except AgreementError Unit :=
  match findAgreement (nodeOf s side) id with
  | none => (s, .error (.NotFound id))
  | some a =>
    match a.state with
    | .Approved =>
      let mark := fun (b : Agreement) =>
        { b with state := .Terminated, terminated_ts := some now,
                 termination_reason := reason }
      let s1 := setNode s side (updateAgreement (nodeOf s side) id mark)
      let peerId := id.translate (peerOf side)
      let s2 :=
        if transportOk s side then
          setNode s1 (peerOf side) (updateAgreement (nodeOf s1 (peerOf side)) peerId
            (fun b => if b.state = .Approved then mark b else b))
        else s1
      (s2, .ok ())
    | st => (s, .error (.InvalidState (stateError st id)))

/-- Modelled from the spec: `get_agreement` of the façade (section 6); the
engine source is not in the repository.  Looks the agreement up in the
node's own store under the exact owner-tagged id; owner views are never
mixed in one store index, so a foreign view fails `NotFound` with the
queried id. -/
def get_agreement (n : NodeState) (id : AgreementId) : Except AgreementError Agreement :=
  match findAgreement n id with
  | none => .error (.NotFound id)
  | some a => .ok a

instance {ε α : Type} [DecidableEq ε] [DecidableEq α] : DecidableEq (Except ε α) := fun a b =>
  match a, b with
  | .error e, .error e' => decidable_of_iff (e = e') (by simp)
  | .ok x, .ok x' => decidable_of_iff (x = x') (by simp)
  | .error _, .ok _ => .isFalse (by simp)
  | .ok _, .error _ => .isFalse (by simp)

/-!
Concrete scenario used by the witnesses, mirroring the test suite's setup:
one exchange of draft proposals (an initial requestor Proposal countered by
a Provider draft), then the Requestor promotes the draft at time 50 with
`valid_to = 100`, confirms at 60, and the Provider approves at 70.
-/

/-- The initial Proposal of the negotiation chain. -/
def p1 : Proposal := ⟨1, none, .Requestor, .Initial⟩

/-- The Provider's draft counter-Proposal, tail of the chain. -/
def p2 : Proposal := ⟨2, some 1, .Provider, .Draft⟩

/-- Fresh two-node network with the negotiated chain and healthy transport. -/
def s0 : MarketState :=
  { req := { proposals := [p1, p2], agreements := [], nextId := 10 },
    prov := { proposals := [p1, p2], agreements := [], nextId := 20 },
    transportToProv := true, transportToReq := true }

/-- The id allocated by the first `create_agreement` on `s0`. -/
def aid0 : AgreementId := ⟨10, .Requestor⟩

/-- State after `create_agreement` of proposal 2 at time 50, `valid_to` 100. -/
def st1 : MarketState := (create_agreement s0 2 100 50).1

/-- `st1` with the transport towards the Provider broken. -/
def st1broken : MarketState := { st1 with transportToProv := false }

/-- State after the Requestor confirmed the agreement at time 60. -/
def st2 : MarketState := (confirm_agreement st1 aid0 none 60).1

/-- State after the Provider approved the agreement at time 70. -/
def st3 : MarketState := (approve_agreement st2 (aid0.translate .Provider) none 70).1

/-- The agreement record persisted by `create_agreement` in `st1`. -/
def agr1 : Agreement := ⟨aid0, 2, 50, 100, .Proposal, none, none, none, none⟩

/-- Proposal 2 after promotion marked it `Accepted`. -/
def p2acc : Proposal := ⟨2, some 1, .Provider, .Accepted⟩

/-- The Requestor's record after confirmation, in `st2`. -/
def agr2 : Agreement := { agr1 with state := .Pending }

/-- The Provider's materialized record after confirmation, in `st2`. -/
def agr2p : Agreement := { agr1 with id := ⟨10, .Provider⟩, state := .Pending }

/-- The Requestor's record after approval, in `st3`. -/
def agr3 : Agreement := { agr1 with state := .Approved, approved_ts := some 70 }

/-!
Helper lemmas about lookups over the store-update maps.
-/

theorem find?_accept_map (l : List Proposal) (pid : Nat)
    (h : (l.find? (fun q => q.id == pid)).isSome) :
    ((l.map (fun q => if q.id = pid then { q with state := ProposalState.Accepted } else q)).find?
        (fun q => q.id == pid)).map Proposal.state = some .Accepted := by
  induction l with
  | nil => simp [List.find?] at h
  | cons q l ih =>
    by_cases hq : q.id = pid
    · simp [List.find?_cons, hq]
    · rw [List.find?_cons] at h
      simp only [List.map_cons, List.find?_cons]
      have hb : (q.id == pid) = false := by simp [hq]
      rw [hb] at h
      simp only [if_neg hq, hb]
      exact ih h

theorem find?_update_map (l : List Agreement) (id : AgreementId) (f : Agreement → Agreement)
    (hf : ∀ a, (f a).id = a.id) :
    (l.map (fun b => if b.id = id then f b else b)).find? (fun b => b.id == id)
      = (l.find? (fun b => b.id == id)).map (fun b => if b.id = id then f b else b) := by
  induction l with
  | nil => rfl
  | cons b l ih =>
    by_cases hb : b.id = id
    · simp [List.find?_cons, hb, hf]
    · simp [List.find?_cons, hb, ih]

/-- Inversion of a successful `create_agreement`: the allocated id is the
Requestor-tagged fresh id and the successor state is the input state with
the new agreement prepended and the promoted Proposal marked `Accepted`. -/
theorem create_agreement_ok_shape (s s' : MarketState) (pid vt now : Nat) (aid : AgreementId)
    (h : create_agreement s pid vt now = (s', .ok aid)) :
    aid = ⟨s.req.nextId, .Requestor⟩ ∧
    (findProposal s.req pid).isSome ∧
    s' = { s with req :=
      { proposals := s.req.proposals.map
          (fun q => if q.id = pid then { q with state := .Accepted } else q),
        agreements :=
          { id := ⟨s.req.nextId, .Requestor⟩, proposal_id := pid, creation_ts := now,
            valid_to := vt, state := .Proposal, approved_ts := none,
            terminated_ts := none, termination_reason := none,
            session_id := none } :: s.req.agreements,
        nextId := s.req.nextId + 1 } } := by
  unfold create_agreement at h
  cases hp : findProposal s.req pid with
  | none => rw [hp] at h; exact absurd h (by simp)
  | some p =>
    simp only [hp] at h
    by_cases h1 : p.prev_id = none
    · rw [if_pos h1] at h; exact absurd h (by simp)
    · rw [if_neg h1] at h
      by_cases h2 : p.issuer = Owner.Requestor
      · rw [if_pos h2] at h; exact absurd h (by simp)
      · rw [if_neg h2] at h
        by_cases h3 : hasSuccessor s.req pid = true
        · rw [if_pos h3] at h; exact absurd h (by simp)
        · rw [if_neg h3] at h
          cases hq : findAgreementByProposal s.req pid with
          | some b => rw [hq] at h; exact absurd h (by simp)
          | none =>
            simp only [hq] at h
            by_cases h4 : vt < now
            · rw [if_pos h4] at h; exact absurd h (by simp)
            · rw [if_neg h4] at h
              simp only [Prod.mk.injEq, Except.ok.injEq] at h
              exact ⟨h.2.symm, by simp [hp], h.1.symm⟩

/-- Claim C1, counterexample: `create_agreement` called with
`valid_to = now` (here both 50) on a draft Proposal does not fail with the
`Expired` error; it succeeds and an Agreement is persisted, contradicting
the claim's "including valid_to exactly equal to now".  This matches the
shipped tests, which create agreements with `valid_to = Utc::now()` and
then use them. -/
theorem create_agreement_at_now_counterexample :
    (create_agreement s0 2 50 50).2 = .ok ⟨10, .Requestor⟩ ∧
    (create_agreement s0 2 50 50).2 ≠ .error (.Expired 2) ∧
    (findAgreement (create_agreement s0 2 50 50).1.req ⟨10, .Requestor⟩).isSome = true :=
  ⟨rfl, by decide, rfl⟩

/-- Claim C1, amended: for every Requestor-side `create_agreement` on a
draft Proposal with `valid_to` strictly earlier than `now`, the call fails
with the `Expired` error and the state is unchanged, so no Agreement is
created; `valid_to = now` is allowed (see the counterexample). -/
theorem create_agreement_past_deadline_expired (s : MarketState) (pid vt now : Nat)
    (p : Proposal)
    (hp : findProposal s.req pid = some p)
    (hprev : p.prev_id ≠ none)
    (hiss : p.issuer = .Provider)
    (hsucc : hasSuccessor s.req pid = false)
    (hnoagr : findAgreementByProposal s.req pid = none)
    (hlt : vt < now) :
    create_agreement s pid vt now = (s, .error (.Expired pid)) := by
  simp [create_agreement, hp, hprev, hiss, hsucc, hnoagr, hlt]

/-- Witness for C1's amended theorem: promoting the draft Proposal at time
50 with the already-passed deadline 40 fails `Expired` with no change. -/
theorem create_agreement_past_deadline_expired_witness :
    create_agreement s0 2 40 50 = (s0, .error (.Expired 2)) :=
  create_agreement_past_deadline_expired s0 2 40 50 p2 (by decide) (by decide)
    (by decide) (by decide) (by decide) (by decide)

/-- Claim C2: `create_agreement` with `valid_to = now` succeeds, and a
subsequent `confirm_agreement` on the created id after a measurable delay
(`now < later`, so the deadline has passed) fails `InvalidState(Expired)`. -/
theorem create_at_now_then_confirm_expired (s : MarketState) (pid now later : Nat)
    (sess : Option String) (p : Proposal)
    (hp : findProposal s.req pid = some p)
    (hprev : p.prev_id ≠ none)
    (hiss : p.issuer = .Provider)
    (hsucc : hasSuccessor s.req pid = false)
    (hnoagr : findAgreementByProposal s.req pid = none)
    (hlater : now < later) :
    (create_agreement s pid now now).2 = .ok ⟨s.req.nextId, .Requestor⟩ ∧
    (confirm_agreement (create_agreement s pid now now).1
        ⟨s.req.nextId, .Requestor⟩ sess later).2
      = .error (.InvalidState (.Expired ⟨s.req.nextId, .Requestor⟩)) := by
  have hres : (create_agreement s pid now now).2 = .ok ⟨s.req.nextId, .Requestor⟩ := by
    simp [create_agreement, hp, hprev, hiss, hsucc, hnoagr]
  obtain ⟨-, -, hs'⟩ := create_agreement_ok_shape s (create_agreement s pid now now).1
    pid now now ⟨s.req.nextId, .Requestor⟩ (by rw [← hres])
  refine ⟨hres, ?_⟩
  rw [hs']
  simp [confirm_agreement, findAgreement, List.find?_cons, Nat.le_of_lt hlater]

/-- Witness for C2: creating at time 50 with `valid_to = 50` succeeds and
confirming at time 55 fails `InvalidState(Expired)`. -/
theorem create_at_now_then_confirm_expired_witness :
    (create_agreement s0 2 50 50).2 = .ok ⟨10, .Requestor⟩ ∧
    (confirm_agreement (create_agreement s0 2 50 50).1 ⟨10, .Requestor⟩ none 55).2
      = .error (.InvalidState (.Expired ⟨10, .Requestor⟩)) :=
  create_at_now_then_confirm_expired s0 2 50 55 none p2 (by decide) (by decide)
    (by decide) (by decide) (by decide) (by decide)

/-- Claim C3: `terminate_agreement` on an agreement in any non-`Approved`
state, on either side, fails `InvalidState` carrying the current state and
changes nothing; in particular a `Proposal`-state agreement reports the
`Proposed` sub-error and a `Pending` (confirmed) one reports `Confirmed`. -/
theorem terminate_agreement_wrong_state (s : MarketState) (side : Owner) (id : AgreementId)
    (reason : Option Reason) (now : Nat) (a : Agreement)
    (ha : findAgreement (nodeOf s side) id = some a)
    (hst : a.state ≠ .Approved) :
    terminate_agreement s side id reason now
      = (s, .error (.InvalidState (stateError a.state id))) ∧
    stateError .Proposal id = .Proposed id ∧ stateError .Pending id = .Confirmed id := by
  refine ⟨?_, rfl, rfl⟩
  cases hc : a.state
  case Approved => exact absurd hc hst
  all_goals simp [terminate_agreement, ha, hc, stateError]

/-- Witness for C3: terminating the freshly created (`Proposal`-state)
agreement fails `InvalidState(Proposed)` and leaves the state unchanged. -/
theorem terminate_agreement_wrong_state_witness :
    terminate_agreement st1 .Requestor aid0 (some ⟨"Failure"⟩) 90
      = (st1, .error (.InvalidState (.Proposed aid0))) :=
  (terminate_agreement_wrong_state st1 .Requestor aid0 (some ⟨"Failure"⟩) 90 agr1
    (by decide) (by decide)).1

/-- Claim C4: with the transport to the Provider broken,
`confirm_agreement` fails `ProtocolCreate`, the agreement is left in state
`Proposal` (the pre-call state), and the same confirm succeeds once the
transport is healthy again, so the record stays consumable for retry. -/
theorem confirm_agreement_transport_failure (s : MarketState) (id : AgreementId)
    (sess : Option String) (now : Nat) (a : Agreement)
    (ha : findAgreement s.req id = some a)
    (hst : a.state = .Proposal)
    (hexp : now < a.valid_to)
    (hnet : s.transportToProv = false) :
    confirm_agreement s id sess now = (s, .error .ProtocolCreate) ∧
    (findAgreement (confirm_agreement s id sess now).1.req id).map Agreement.state
      = some .Proposal ∧
    (confirm_agreement { s with transportToProv := true } id sess now).2 = .ok () := by
  have hle : ¬ (a.valid_to ≤ now) := by omega
  have h1 : confirm_agreement s id sess now = (s, .error .ProtocolCreate) := by
    simp [confirm_agreement, ha, hst, hle, hnet]
  refine ⟨h1, ?_, ?_⟩
  · rw [h1]; simp [ha, hst]
  · cases hfp : findAgreement s.prov (id.translate .Provider) <;>
      simp [confirm_agreement, ha, hst, hle, hfp]

/-- Witness for C4: on `st1broken` the confirm fails `ProtocolCreate` with
no state change. -/
theorem confirm_agreement_transport_failure_witness :
    confirm_agreement st1broken aid0 none 60 = (st1broken, .error .ProtocolCreate) :=
  (confirm_agreement_transport_failure st1broken aid0 none 60 agr1
    (by decide) (by decide) (by decide) (by decide)).1

/-- Claim C5: a second `create_agreement` on a Proposal already referenced
by an Agreement fails `AlreadyExists` carrying the existing agreement's id
and the proposal id, and changes nothing; no hypothesis constrains the
existing Agreement's state or deadline, so this holds in particular when
the first Agreement has already expired. -/
theorem create_agreement_already_exists (s : MarketState) (pid vt now : Nat)
    (p : Proposal) (a : Agreement)
    (hp : findProposal s.req pid = some p)
    (hprev : p.prev_id ≠ none)
    (hiss : p.issuer = .Provider)
    (hsucc : hasSuccessor s.req pid = false)
    (ha : findAgreementByProposal s.req pid = some a) :
    create_agreement s pid vt now = (s, .error (.AlreadyExists a.id pid)) := by
  simp [create_agreement, hp, hprev, hiss, hsucc, ha]

/-- Witness for C5: re-promoting proposal 2 at time 1000, long after the
first agreement's `valid_to = 100` passed, fails
`AlreadyExists(aid0, 2)`. -/
theorem create_agreement_already_exists_witness :
    create_agreement st1 2 2000 1000 = (st1, .error (.AlreadyExists aid0 2)) :=
  create_agreement_already_exists st1 2 2000 1000 p2acc agr1 (by decide) (by decide)
    (by decide) (by decide) (by decide)

/-- Claim C6: every successful `create_agreement` persists an Agreement in
state `Proposal` under a Requestor-tagged id referencing the promoted
Proposal, and that Proposal's state is transitioned to `Accepted`. -/
theorem create_agreement_success_persists (s s' : MarketState) (pid vt now : Nat)
    (aid : AgreementId)
    (h : create_agreement s pid vt now = (s', .ok aid)) :
    aid.owner = .Requestor ∧
    (findAgreement s'.req aid).map Agreement.state = some .Proposal ∧
    (findAgreement s'.req aid).map Agreement.proposal_id = some pid ∧
    (findProposal s'.req pid).map Proposal.state = some .Accepted := by
  obtain ⟨haid, hps, hs'⟩ := create_agreement_ok_shape s s' pid vt now aid h
  subst hs'
  subst haid
  refine ⟨rfl, ?_, ?_, ?_⟩
  · simp [findAgreement, List.find?_cons]
  · simp [findAgreement, List.find?_cons]
  · exact find?_accept_map s.req.proposals pid hps

/-- Witness for C6: the create on `s0` yields `st1` holding the Requestor-
tagged agreement in state `Proposal` and proposal 2 marked `Accepted`. -/
theorem create_agreement_success_persists_witness :
    aid0.owner = .Requestor ∧
    (findAgreement st1.req aid0).map Agreement.state = some .Proposal ∧
    (findAgreement st1.req aid0).map Agreement.proposal_id = some 2 ∧
    (findProposal st1.req 2).map Proposal.state = some .Accepted :=
  create_agreement_success_persists s0 st1 2 100 50 aid0 rfl

/-- Claim C7: after a successful `confirm_agreement`, a second
`confirm_agreement` on the same id fails `InvalidState(Confirmed)` and
causes no state change (the returned state is the post-first-confirm
state itself). -/
theorem second_confirm_invalid_state (s : MarketState) (id : AgreementId)
    (sess sess2 : Option String) (now now2 : Nat) (a : Agreement)
    (ha : findAgreement s.req id = some a)
    (hst : a.state = .Proposal)
    (hexp : now < a.valid_to)
    (hnet : s.transportToProv = true) :
    (confirm_agreement s id sess now).2 = .ok () ∧
    confirm_agreement (confirm_agreement s id sess now).1 id sess2 now2
      = ((confirm_agreement s id sess now).1,
         .error (.InvalidState (.Confirmed id))) := by
  have haid : a.id = id := by simpa using List.find?_some ha
  have hle : ¬ (a.valid_to ≤ now) := by omega
  have hreq : (confirm_agreement s id sess now).1.req
      = updateAgreement s.req id
          (fun b => { b with state := .Pending, session_id := sess }) := by
    cases hfp : findAgreement s.prov (id.translate .Provider) <;>
      simp [confirm_agreement, ha, hst, hle, hnet, hfp]
  have hok : (confirm_agreement s id sess now).2 = .ok () := by
    cases hfp : findAgreement s.prov (id.translate .Provider) <;>
      simp [confirm_agreement, ha, hst, hle, hnet, hfp]
  have hf2 : findAgreement (confirm_agreement s id sess now).1.req id
      = some { a with state := .Pending, session_id := sess } := by
    rw [hreq]
    simp only [findAgreement, updateAgreement]
    rw [find?_update_map s.req.agreements id
      (fun b => { b with state := .Pending, session_id := sess }) (fun b => rfl)]
    have ha' := ha
    simp only [findAgreement] at ha'
    rw [ha']
    simp [haid]
  refine ⟨hok, ?_⟩
  generalize hS : (confirm_agreement s id sess now).1 = S1 at hf2 ⊢
  simp [confirm_agreement, hf2, stateError]

/-- Witness for C7: confirming `st1` at 60 succeeds and the repeated
confirm at 61 fails `InvalidState(Confirmed)` with no state change. -/
theorem second_confirm_invalid_state_witness :
    (confirm_agreement st1 aid0 none 60).2 = .ok () ∧
    confirm_agreement (confirm_agreement st1 aid0 none 60).1 aid0 none 61
      = ((confirm_agreement st1 aid0 none 60).1,
         .error (.InvalidState (.Confirmed aid0))) :=
  second_confirm_invalid_state st1 aid0 none none 60 61 agr1 (by decide) (by decide)
    (by decide) (by decide)

/-- Claim C8: after a successful Provider-side `approve_agreement`, a
further `approve_agreement` on the same id fails `InvalidState(Approved)`;
in general every approve on an agreement whose Provider-side state is
`Approving` or `Approved` fails `InvalidState(Approved)` with no state
change. -/
theorem second_approve_invalid_state (s : MarketState) (id : AgreementId)
    (sess sess2 : Option String) (now now2 : Nat) (a r : Agreement)
    (ha : findAgreement s.prov id = some a)
    (hst : a.state = .Pending)
    (hexp : now < a.valid_to)
    (hnet : s.transportToReq = true)
    (hr : findAgreement s.req (id.translate .Requestor) = some r)
    (hrst : r.state = .Pending) :
    (approve_agreement s id sess now).2 = .ok () ∧
    approve_agreement (approve_agreement s id sess now).1 id sess2 now2
      = ((approve_agreement s id sess now).1,
         .error (.InvalidState (.Approved id))) ∧
    (∀ t b, findAgreement t.prov id = some b →
      (b.state = .Approving ∨ b.state = .Approved) →
      approve_agreement t id sess2 now2
        = (t, .error (.InvalidState (.Approved id)))) := by
  have hgen : ∀ t b, findAgreement t.prov id = some b →
      (b.state = .Approving ∨ b.state = .Approved) →
      approve_agreement t id sess2 now2
        = (t, .error (.InvalidState (.Approved id))) := by
    intro t b hb hbst
    rcases hbst with hbst | hbst <;> simp [approve_agreement, hb, hbst, stateError]
  have haid : a.id = id := by simpa using List.find?_some ha
  have hle : ¬ (a.valid_to ≤ now) := by omega
  have hok : (approve_agreement s id sess now).2 = .ok () := by
    simp [approve_agreement, ha, hst, hle, hnet, hr, hrst]
  have hprov : (approve_agreement s id sess now).1.prov
      = updateAgreement s.prov id
          (fun b => { b with state := .Approved, approved_ts := some now,
                             session_id := sess }) := by
    simp [approve_agreement, ha, hst, hle, hnet, hr, hrst]
  have hf2 : findAgreement (approve_agreement s id sess now).1.prov id
      = some { a with state := .Approved, approved_ts := some now,
                      session_id := sess } := by
    rw [hprov]
    simp only [findAgreement, updateAgreement]
    rw [find?_update_map s.prov.agreements id
      (fun b => { b with state := .Approved, approved_ts := some now,
                         session_id := sess }) (fun b => rfl)]
    have ha' := ha
    simp only [findAgreement] at ha'
    rw [ha']
    simp [haid]
  exact ⟨hok, hgen _ _ hf2 (Or.inr rfl), hgen⟩

/-- Witness for C8: the Provider's approve on `st2` at 70 succeeds and the
second approve at 71 fails `InvalidState(Approved)`. -/
theorem second_approve_invalid_state_witness :
    approve_agreement (approve_agreement st2 ⟨10, .Provider⟩ none 70).1
        ⟨10, .Provider⟩ none 71
      = ((approve_agreement st2 ⟨10, .Provider⟩ none 70).1,
         .error (.InvalidState (.Approved ⟨10, .Provider⟩))) :=
  (second_approve_invalid_state st2 ⟨10, .Provider⟩ none none 70 71 agr2p agr2
    (by decide) (by decide) (by decide) (by decide) (by decide) (by decide)).2.1

/-- Claim C9: `wait_for_approval` on an `Approved` agreement returns the
`Approved` status; the operation reads the store without mutating it, so
every further sequential call returns `Approved` as well. -/
theorem wait_for_approval_approved_idempotent (s : MarketState) (id : AgreementId)
    (now : Nat) (a : Agreement)
    (ha : findAgreement s.req id = some a)
    (hst : a.state = .Approved) :
    wait_for_approval s id now = .ok .Approved ∧
    ∀ n : Nat, List.replicate n (wait_for_approval s id now)
      = List.replicate n (Except.ok ApprovalStatus.Approved) := by
  have h1 : wait_for_approval s id now = .ok .Approved := by
    simp [wait_for_approval, ha, hst]
  exact ⟨h1, fun n => by rw [h1]⟩

/-- Witness for C9: after the approval in `st3`, the wait returns
`Approved`. -/
theorem wait_for_approval_approved_idempotent_witness :
    wait_for_approval st3 aid0 80 = .ok .Approved :=
  (wait_for_approval_approved_idempotent st3 aid0 80 agr3 (by decide) (by decide)).1

/-- Claim C10: after a Requestor-side `create_agreement`, `get_agreement`
on the same node with the Provider-owner translation of the allocated id
fails `NotFound` carrying the translated id (owner views are not
interchangeable), provided the translated id was not stored before. -/
theorem get_agreement_translated_not_found (s s' : MarketState) (pid vt now : Nat)
    (aid : AgreementId)
    (h : create_agreement s pid vt now = (s', .ok aid))
    (hnone : findAgreement s.req (aid.translate .Provider) = none) :
    get_agreement s'.req (aid.translate .Provider)
      = .error (.NotFound (aid.translate .Provider)) := by
  obtain ⟨haid, -, hs'⟩ := create_agreement_ok_shape s s' pid vt now aid h
  subst hs'
  subst haid
  simp only [findAgreement, AgreementId.translate] at hnone
  simp [get_agreement, findAgreement, AgreementId.translate, List.find?_cons, hnone]

/-- Witness for C10: on `st1` the Provider-translated view of `aid0` is
not found on the Requestor node. -/
theorem get_agreement_translated_not_found_witness :
    get_agreement st1.req (aid0.translate .Provider)
      = .error (.NotFound (aid0.translate .Provider)) :=
  get_agreement_translated_not_found s0 st1 2 100 50 aid0 rfl (by decide)

end Yagna
